import Mathlib

/-!
Verification of the c9ai natural-language command router.

The development shallowly embeds the router, classifier, pattern resolver,
intent executor, retry supervisor and application-mapping lookup of
`c9ai-core` (the interactive-mode core module).  JavaScript strings are
modelled as `List Char`; JavaScript regular expressions used by the code are
unrolled into explicit scanning functions, exact for single-line inputs
(the regexes involved never use the multiline flag, and `.` does not match
a newline).  External effects (the file system, subprocess spawning,
`process.chdir`, the llama.cpp binding, the `sleep` timer) are passed in as
explicit function parameters, so each embedded operation is a pure function
of its inputs and of those capabilities.
-/

/-- JavaScript strings, modelled as lists of characters. -/
abbrev Str := List Char

/-- Converts a Lean string literal to the `Str` model. -/
def lit (s : String) : Str := s.toList

/-- The apostrophe character (U+0027), used to assemble string constants. -/
def apos : Char := Char.ofNat 39

/-- Whitespace recognised by the JavaScript `trim`/`\s` constructs, restricted
to the ASCII whitespace characters that can occur in the inputs considered. -/
def jsWs (c : Char) : Bool :=
  c = ' ' ∨ c = '\t' ∨ c = '\n' ∨ c = '\r' ∨ c = Char.ofNat 11 ∨ c = Char.ofNat 12

/-- `String.prototype.trim`: removes leading and trailing whitespace. -/
def jsTrim (s : Str) : Str :=
  ((s.dropWhile jsWs).reverse.dropWhile jsWs).reverse

/-- `String.prototype.toLowerCase`, for the ASCII inputs the router handles. -/
def jsToLower (s : Str) : Str := s.map Char.toLower

/-- Whether `p` is a leading segment of `s` (JS `String.prototype.startsWith`). -/
def strIsPref : Str → Str → Bool
  | [], _ => true
  | _ :: _, [] => false
  | a :: as, b :: bs => a = b ∧ strIsPref as bs

/-- Whether `p` occurs as a contiguous segment of `s` (JS `String.prototype.includes`). -/
def strHas (p : Str) : Str → Bool
  | [] => p.isEmpty
  | c :: t => strIsPref p (c :: t) ∨ strHas p t

/-- Whether `s` ends with `p` (JS `String.prototype.endsWith`). -/
def strEndsWith (p s : Str) : Bool := strIsPref p.reverse s.reverse

/-- Match of the regex `a.*b` against a single-line string: some occurrence of
`a` is followed, at any distance, by an occurrence of `b`. -/
def seqHas (a b : Str) : Str → Bool
  | [] => a.isEmpty ∧ b.isEmpty
  | c :: t => (strIsPref a (c :: t) ∧ strHas b ((c :: t).drop a.length)) ∨ seqHas a b t

/-- Match of the regex `\?.*pat` against a single-line string: a question mark
followed, at any distance, by `pat`. -/
def afterQHas (pat : Str) : Str → Bool
  | [] => false
  | c :: t => (c = '?' ∧ strHas pat t) ∨ afterQHas pat t

/-- JS word character (`\w`): ASCII letter, digit or underscore. -/
def wordChar (c : Char) : Bool := c.isAlpha ∨ c.isDigit ∨ c = '_'

/-- Whether the boundary before a match position is a word boundary, given the
preceding character (`none` at the start of the string). -/
def bdryOk : Option Char → Bool
  | none => true
  | some p => ¬ wordChar p

/-- Whether the position after a match is a word boundary. -/
def tailBdry : Str → Bool
  | [] => true
  | c :: _ => ¬ wordChar c

/-- Match of the regex `\bw\b` for a word `w` made of word characters: `w`
occurs delimited by word boundaries. -/
def hasWordFrom (w : Str) (prev : Option Char) : Str → Bool
  | [] => false
  | c :: t =>
      (bdryOk prev ∧ strIsPref w (c :: t) ∧ tailBdry ((c :: t).drop w.length))
        ∨ hasWordFrom w (some c) t

/-- Whole-word occurrence of `w` in `s`. -/
def hasWord (w s : Str) : Bool := hasWordFrom w none s

/-- The command-intent patterns of `isConversationalInput`, in source order:
seven anchored leading-verb alternations, then the unanchored
`disk.*usage|space`, `git.*status` and `process|file|directory` checks. -/
def matchesCommand (lower : Str) : Bool :=
  strIsPref (lit "open") lower ∨ strIsPref (lit "launch") lower
    ∨ strIsPref (lit "start") lower ∨ strIsPref (lit "run") lower
    ∨ strIsPref (lit "list") lower ∨ strIsPref (lit "show") lower
    ∨ strIsPref (lit "display") lower
    ∨ strIsPref (lit "check") lower ∨ strIsPref (lit "verify") lower
    ∨ strIsPref (lit "test") lower
    ∨ strIsPref (lit "search") lower ∨ strIsPref (lit "find") lower
    ∨ strIsPref (lit "look") lower
    ∨ strIsPref (lit "create") lower ∨ strIsPref (lit "make") lower
    ∨ strIsPref (lit "build") lower
    ∨ strIsPref (lit "delete") lower ∨ strIsPref (lit "remove") lower
    ∨ strIsPref (lit "close") lower
    ∨ strIsPref (lit "compile") lower ∨ strIsPref (lit "execute") lower
    ∨ strIsPref (lit "install") lower
    ∨ seqHas (lit "disk") (lit "usage") lower ∨ strHas (lit "space") lower
    ∨ seqHas (lit "git") (lit "status") lower
    ∨ strHas (lit "process") lower ∨ strHas (lit "file") lower
    ∨ strHas (lit "directory") lower

/-- The string constant `what's up`. -/
def whatsUp : Str := lit "what" ++ [apos] ++ lit "s up"

/-- The conversational patterns of `isConversationalInput`, in source order:
anchored greeting/thanks/identity/politeness leads, the `will/can/do/are
you ... ?` forms, and questions mentioning chat vocabulary after a `?`. -/
def matchesConversational (lower : Str) : Bool :=
  strIsPref (lit "hi") lower ∨ strIsPref (lit "hello") lower
    ∨ strIsPref (lit "hey") lower ∨ strIsPref (lit "good morning") lower
    ∨ strIsPref (lit "good afternoon") lower ∨ strIsPref (lit "good evening") lower
    ∨ strIsPref (lit "how are you") lower ∨ strIsPref whatsUp lower
    ∨ strIsPref (lit "what can you do") lower
    ∨ strIsPref (lit "thanks") lower ∨ strIsPref (lit "thank you") lower
    ∨ strIsPref (lit "goodbye") lower ∨ strIsPref (lit "bye") lower
    ∨ strIsPref (lit "who are you") lower ∨ strIsPref (lit "what are you") lower
    ∨ strIsPref (lit "please") lower ∨ strIsPref (lit "can you") lower
    ∨ strIsPref (lit "could you") lower ∨ strIsPref (lit "would you") lower
    ∨ strIsPref (lit "tell me") lower ∨ strIsPref (lit "explain") lower
    ∨ strIsPref (lit "describe") lower
    ∨ strIsPref (lit "what do you think") lower ∨ strIsPref (lit "do you like") lower
    ∨ strIsPref (lit "do you know") lower
    ∨ (strHas (lit "will you") lower ∧ strEndsWith (lit "?") lower)
    ∨ (strHas (lit "can you") lower ∧ strEndsWith (lit "?") lower)
    ∨ (strHas (lit "do you") lower ∧ strEndsWith (lit "?") lower)
    ∨ (strHas (lit "are you") lower ∧ strEndsWith (lit "?") lower)
    ∨ afterQHas (lit "conversational") lower
    ∨ strHas (lit "?chat") lower ∨ strHas (lit "?talk") lower
    ∨ strHas (lit "?discuss") lower

/-- The `\b(what|why|how|when|where|who|which)\b` heuristic. -/
def hasQuestionWords (lower : Str) : Bool :=
  hasWord (lit "what") lower ∨ hasWord (lit "why") lower ∨ hasWord (lit "how") lower
    ∨ hasWord (lit "when") lower ∨ hasWord (lit "where") lower
    ∨ hasWord (lit "who") lower ∨ hasWord (lit "which") lower

/-- Whether the raw input contains a question mark (`input.includes('?')`). -/
def hasQuestionMark (input : Str) : Bool := strHas (lit "?") input

/-- The `\b(generally|really|actually|maybe|perhaps|think|feel|believe)\b`
hedging-word heuristic. -/
def hasConversationalWords (lower : Str) : Bool :=
  hasWord (lit "generally") lower ∨ hasWord (lit "really") lower
    ∨ hasWord (lit "actually") lower ∨ hasWord (lit "maybe") lower
    ∨ hasWord (lit "perhaps") lower ∨ hasWord (lit "think") lower
    ∨ hasWord (lit "feel") lower ∨ hasWord (lit "believe") lower

/-- The `\b(usage|status|files|directory|process|disk|space)\b` command-noun
heuristic. -/
def hasCommandKeywords (lower : Str) : Bool :=
  hasWord (lit "usage") lower ∨ hasWord (lit "status") lower
    ∨ hasWord (lit "files") lower ∨ hasWord (lit "directory") lower
    ∨ hasWord (lit "process") lower ∨ hasWord (lit "disk") lower
    ∨ hasWord (lit "space") lower

/-- The conversational/actionable classifier `isConversationalInput`:
command patterns first, then conversational patterns, then the
question-word and hedging-word heuristics, then the default
`hasQuestionMark || lower.length < 15`. -/
def isConversationalInput (input : Str) : Bool :=
  let lower := jsTrim (jsToLower input)
  bif matchesCommand lower then false
  else bif matchesConversational lower then true
  else bif hasQuestionWords lower && hasQuestionMark input && !hasCommandKeywords lower then true
  else bif hasConversationalWords lower then true
  else hasQuestionMark input || decide (lower.length < 15)

/-- The dispatch decisions of `handleCommand`: which subsystem an input is
routed to, with the argument that subsystem receives.  `shellExec` is the
shell-execution primitive (`runShellCommand`), `cdBuiltin` the in-process
`cd` special case carrying the raw (trimmed) target, `aiPrompt`/`aiSession`
the one-shot and interactive AI paths, `conversation` and `naturalCommand`
the classifier-routed free-text paths, `toolDirective` the `@tool` path,
and `named` one of the keyword subcommands. -/
inductive Dispatch where
  | shellExec : Str → Dispatch
  | cdBuiltin : Str → Dispatch
  | aiPrompt : Str → Str → Dispatch
  | aiSession : Str → Dispatch
  | conversation : Str → Dispatch
  | naturalCommand : Str → Dispatch
  | toolDirective : Str → Dispatch
  | named : Str → List Str → Dispatch
  | noOp : Dispatch
  deriving DecidableEq

/-- `String.prototype.split(' ')`: split on every single space, keeping empty
fields. -/
def jsSplitAux (acc : Str) : Str → List Str
  | [] => [acc.reverse]
  | c :: t => if c = ' ' then acc.reverse :: jsSplitAux [] t else jsSplitAux (c :: acc) t

/-- Split a string on single spaces. -/
def jsSplitSpace (s : Str) : List Str := jsSplitAux [] s

/-- `Array.prototype.join(' ')`. -/
def jsJoinSpace : List Str → Str
  | [] => []
  | [s] => s
  | s :: rest => s ++ ' ' :: jsJoinSpace rest

/-- The named subcommands of the `handleCommand` keyword switch. -/
def namedCommandList : List Str :=
  [lit "claude", lit "gemini", lit "switch", lit "todos", lit "add",
   lit "analytics", lit "tools", lit "models", lit "scan", lit "issues",
   lit "achieve", lit "goal", lit "config", lit "help", lit "logo", lit "banner"]

/-- The routing logic of `handleCommand`: the `!` shell sigil (with the `cd`
special case), the `@` mode sigils (whose switch has no default, so an
unknown mode falls through), the named-command switch on the lower-cased
first token, and the final conversational/actionable classification of
non-empty free text. -/
def dispatchOf (input : Str) : Dispatch :=
  let command := (jsSplitSpace input).headD []
  let args := (jsSplitSpace input).drop 1
  if strIsPref (lit "!") input = true then
    let shellCommand := jsTrim (input.drop 1)
    if shellCommand = [] then Dispatch.noOp
    else if strIsPref (lit "cd") shellCommand = true then
      Dispatch.cdBuiltin (jsTrim (shellCommand.drop 2))
    else Dispatch.shellExec shellCommand
  else
    let mode := (jsSplitSpace (input.drop 1)).headD []
    let content := jsJoinSpace ((jsSplitSpace (input.drop 1)).drop 1)
    if strIsPref (lit "@") input = true
        ∧ (mode = lit "claude" ∨ mode = lit "gemini" ∨ mode = lit "local") then
      if content = [] then Dispatch.aiSession mode else Dispatch.aiPrompt mode content
    else if strIsPref (lit "@") input = true ∧ (mode = lit "conv" ∨ mode = lit "chat") then
      Dispatch.conversation (if content = [] then lit "Hello!" else content)
    else if strIsPref (lit "@") input = true ∧ (mode = lit "cmd" ∨ mode = lit "command") then
      Dispatch.naturalCommand content
    else if strIsPref (lit "@") input = true ∧ mode = lit "tool" then
      Dispatch.toolDirective content
    else if jsToLower command ∈ namedCommandList then
      Dispatch.named (jsToLower command) args
    else if command ≠ [] ∧ jsTrim input ≠ [] then
      if isConversationalInput (jsTrim input) = true then Dispatch.conversation (jsTrim input)
      else Dispatch.naturalCommand (jsTrim input)
    else Dispatch.noOp

/-- Outcome of one `handleCommand` invocation: either the dispatched handler
completed, or its exception was caught at the top boundary and reported. -/
inductive HandlerOutcome where
  | completed : HandlerOutcome
  | reported : Str → HandlerOutcome
  deriving DecidableEq

/-- The top-level `try/catch` of `handleCommand`: the dispatched handler
(an arbitrary fallible capability `exec`) runs, and any exception is caught
and turned into a reported message; `handleCommand` itself is total. -/
def handleCommandM (exec : Dispatch → Except Str Unit) (input : Str) : HandlerOutcome :=
  match exec (dispatchOf input) with
  | Except.ok _ => HandlerOutcome.completed
  | Except.error e => HandlerOutcome.reported (lit "Error executing command: " ++ e)

/-- The `cd` target fixup of the shell-sigil branch: empty or `~` becomes the
home directory. -/
def cdTarget (homedir t : Str) : Str :=
  if t = [] ∨ t = lit "~" then homedir else t

/-- The built-in `cd` handler: `process.chdir` (an arbitrary fallible
capability) is attempted, and a failure is caught and reported rather than
propagated. -/
def runCdBuiltin (homedir : Str) (chdir : Str → Except Str Unit) (t : Str) : HandlerOutcome :=
  match chdir (cdTarget homedir t) with
  | Except.ok _ => HandlerOutcome.completed
  | Except.error e => HandlerOutcome.reported (lit "Error changing directory: " ++ e)

/-- Whether an interactive-mode input is one of the explicit quit inputs
(`exit`, `quit`, `stop`, or `emergency exit` case-insensitively). -/
def isExitInput (c : Str) : Bool :=
  jsTrim c = lit "exit" ∨ jsTrim c = lit "quit" ∨ jsTrim c = lit "stop"
    ∨ jsToLower (jsTrim c) = lit "emergency exit"

/-- One iteration of the interactive REPL of `interactiveMode`: quit inputs
terminate the process, empty input is skipped, and anything else goes
through `handleCommand`; returns whether the loop keeps running. -/
def replStep (exec : Dispatch → Except Str Unit) (command : Str) : Bool :=
  if jsTrim command = lit "exit" ∨ jsTrim command = lit "quit" ∨ jsTrim command = lit "stop" then
    false
  else if jsToLower (jsTrim command) = lit "emergency exit" then false
  else if jsTrim command = [] then true
  else
    match handleCommandM exec (jsTrim command) with
    | HandlerOutcome.completed => true
    | HandlerOutcome.reported _ => true

/-- The REPL over a sequence of inputs: `true` when the loop is still alive
after consuming all of them. -/
def replAlive (exec : Dispatch → Except Str Unit) : List Str → Bool
  | [] => true
  | c :: rest => if replStep exec c = true then replAlive exec rest else false

/-- The mode words handled by the `@` sigil switch of `handleCommand`. -/
def sigilModeList : List Str :=
  [lit "claude", lit "gemini", lit "local", lit "conv", lit "chat",
   lit "cmd", lit "command", lit "tool"]

/-- Decidable equality for `Except`, needed to evaluate embedded results. -/
instance exceptDecEq {ε α : Type} [DecidableEq ε] [DecidableEq α] :
    DecidableEq (Except ε α) := fun a b =>
  match a, b with
  | Except.ok x, Except.ok y =>
      if h : x = y then isTrue (by rw [h])
      else isFalse (by intro he; injection he; contradiction)
  | Except.error x, Except.error y =>
      if h : x = y then isTrue (by rw [h])
      else isFalse (by intro he; injection he; contradiction)
  | Except.ok _, Except.error _ => isFalse (fun h => Except.noConfusion h)
  | Except.error _, Except.ok _ => isFalse (fun h => Except.noConfusion h)

/-- Result of one `runLocalAI` invocation: how many times the underlying
inference call was attempted, the backoff delays (in milliseconds) slept
between attempts, and the final result. -/
structure LocalAIRun where
  calls : Nat
  delays : List Nat
  result : Except Str Str
  deriving DecidableEq

/-- The retry bound configured in the `C9AI` constructor
(`this.maxRetries = 3`). -/
def maxRetries : Nat := 3

/-- The error thrown by `runLocalAI` when its retries are exhausted
(`Local AI failed after ${this.maxRetries} attempts: ...`). -/
def localAIFailMsg (e : Str) : Str := lit "Local AI failed after 3 attempts: " ++ e

/-- The recursion of `runLocalAI(prompt, retryCount)`: try the underlying
call; on failure, if `retryCount < maxRetries`, sleep 1000 ms and recurse
with `retryCount + 1`, otherwise throw.  The guard `retryCount < maxRetries`
is represented structurally by `remaining = maxRetries - retryCount`
(truncated subtraction): the guard holds exactly when `remaining` is a
successor, and the recursive call's `remaining` is again
`maxRetries - (retryCount + 1)`. -/
def runLocalAIGo (attempt : Nat → Except Str Str) : Nat → Nat → LocalAIRun
  | 0, retryCount =>
      match attempt retryCount with
      | Except.ok r => ⟨1, [], Except.ok r⟩
      | Except.error e => ⟨1, [], Except.error (localAIFailMsg e)⟩
  | remaining + 1, retryCount =>
      match attempt retryCount with
      | Except.ok r => ⟨1, [], Except.ok r⟩
      | Except.error _ =>
          let rest := runLocalAIGo attempt remaining (retryCount + 1)
          ⟨rest.calls + 1, 1000 :: rest.delays, rest.result⟩

/-- `runLocalAI` entered at a given `retryCount` (the REPL calls it at 0). -/
def runLocalAI (attempt : Nat → Except Str Str) (retryCount : Nat) : LocalAIRun :=
  runLocalAIGo attempt (maxRetries - retryCount) retryCount

/-- The failure modes of `runIntent`, distinguished by the error message each
`throw` carries in the source. -/
inductive IntentError where
  | unsupportedCompile : Str → IntentError
  | shOnWindows : IntentError
  | scriptNotFound : Str → IntentError
  | unknownVerb : Str → IntentError
  | noCommand : Str → Str → IntentError
  deriving DecidableEq

/-- `path.join(scriptsDir, target)`; the platform separator does not matter
here because the joined path is only ever fed back to the abstract
file-existence capability. -/
def pathJoin (a b : Str) : Str := a ++ lit "/" ++ b

/-- Hexadecimal digit (uppercase, as produced by `encodeURIComponent`). -/
def hexDigitChar (n : Nat) : Char :=
  if n < 10 then Char.ofNat (48 + n) else Char.ofNat (55 + n)

/-- UTF-8 byte sequence of a character. -/
def utf8Bytes (c : Char) : List Nat :=
  let n := c.toNat
  if n < 128 then [n]
  else if n < 2048 then [192 + n / 64, 128 + n % 64]
  else if n < 65536 then [224 + n / 4096, 128 + (n / 64) % 64, 128 + n % 64]
  else [240 + n / 262144, 128 + (n / 4096) % 64, 128 + (n / 64) % 64, 128 + n % 64]

/-- The characters `encodeURIComponent` leaves unescaped. -/
def uriUnreserved (c : Char) : Bool :=
  c.isAlphanum ∨ c = '-' ∨ c = '_' ∨ c = '.' ∨ c = '!' ∨ c = '~' ∨ c = '*'
    ∨ c = apos ∨ c = '(' ∨ c = ')'

/-- Percent-encoding of one byte. -/
def pctEncodeByte (b : Nat) : Str := ['%', hexDigitChar (b / 16), hexDigitChar (b % 16)]

/-- `encodeURIComponent`. -/
def encodeURIComponent (s : Str) : Str :=
  s.foldr
    (fun c acc =>
      (if uriUnreserved c then [c] else (utf8Bytes c).flatMap pctEncodeByte) ++ acc)
    []

/-- The intent executor `runIntent(verb, target)`: synthesizes the platform
command for the verb, or throws; the returned string is what would be passed
to the subprocess primitive `runCommand`, so an error result means no
subprocess is invoked.  `osType` is `os.platform()` and `fileExists` the
`fs.exists` capability. -/
def runIntent (osType scriptsDir : Str) (fileExists : Str → Bool) (verb target : Str) :
    Except IntentError Str :=
  let cmd : Except IntentError Str :=
    if jsToLower verb = lit "open" then
      if osType = lit "darwin" then Except.ok (lit "open \"" ++ target ++ lit "\"")
      else if osType = lit "win32" then Except.ok (lit "start \"\" \"" ++ target ++ lit "\"")
      else Except.ok (lit "xdg-open \"" ++ target ++ lit "\"")
    else if jsToLower verb = lit "compile" then
      if strEndsWith (lit ".tex") target = true then
        Except.ok (lit "pdflatex \"" ++ target ++ lit "\"")
      else Except.error (IntentError.unsupportedCompile target)
    else if jsToLower verb = lit "run" then
      let scriptPath := pathJoin scriptsDir target
      if fileExists scriptPath = true then
        if strEndsWith (lit ".sh") target = true then
          if osType = lit "win32" then Except.error IntentError.shOnWindows
          else Except.ok (lit "bash \"" ++ scriptPath ++ lit "\"")
        else if strEndsWith (lit ".bat") target = true ∧ osType = lit "win32" then
          Except.ok (lit "\"" ++ scriptPath ++ lit "\"")
        else if strEndsWith (lit ".py") target = true then
          Except.ok ((if osType = lit "win32" then lit "python" else lit "python3")
            ++ lit " \"" ++ scriptPath ++ lit "\"")
        else if strEndsWith (lit ".js") target = true then
          Except.ok (lit "node \"" ++ scriptPath ++ lit "\"")
        else Except.ok (lit "\"" ++ scriptPath ++ lit "\"")
      else Except.error (IntentError.scriptNotFound target)
    else if jsToLower verb = lit "search" then
      let url := lit "https://www.google.com/search?q=" ++ encodeURIComponent target
      if osType = lit "win32" then Except.ok (lit "start \"\" \"" ++ url ++ lit "\"")
      else if osType = lit "linux" then Except.ok (lit "xdg-open \"" ++ url ++ lit "\"")
      else Except.ok (lit "open \"" ++ url ++ lit "\"")
    else Except.error (IntentError.unknownVerb verb)
  match cmd with
  | Except.ok c =>
      if c = [] then Except.error (IntentError.noCommand verb target) else Except.ok c
  | Except.error e => Except.error e

/-- The anchored greeting rule of `runPatternMatchingAI`
(`^(hi|hello|hey|greetings|good morning|good afternoon|good evening)$`). -/
def pmGreeting1 (l : Str) : Bool :=
  l = lit "hi" ∨ l = lit "hello" ∨ l = lit "hey" ∨ l = lit "greetings"
    ∨ l = lit "good morning" ∨ l = lit "good afternoon" ∨ l = lit "good evening"

/-- The string constant `how's it going`. -/
def howsItGoing : Str := lit "how" ++ [apos] ++ lit "s it going"

/-- The anchored second greeting rule
(`^(how are you|what's up|how's it going)$`). -/
def pmGreeting2 (l : Str) : Bool :=
  l = lit "how are you" ∨ l = whatsUp ∨ l = howsItGoing

/-- The thanks rule (`includes('thank') || includes('thanks')`). -/
def pmThanks (l : Str) : Bool := strHas (lit "thank") l ∨ strHas (lit "thanks") l

/-- The capability message returned by the greeting rule. -/
def msgGreeting : Str :=
  lit "Hello! I" ++ [apos]
    ++ lit "m C9 AI. I can help you with tasks like:\n• \"open excel\" - Open applications\n• \"list files\" - Show directory contents\n• \"search for X\" - Web search\n• \"compile document\" - Build projects\nWhat can I help you with?"

/-- The message returned by the second greeting rule. -/
def msgHowAreYou : Str :=
  lit "I" ++ [apos]
    ++ lit "m doing great! Ready to help you be more productive. What task would you like me to help with?"

/-- The message returned by the thanks rule. -/
def msgThanks : Str :=
  lit "You" ++ [apos]
    ++ lit "re welcome! Happy to help. Is there anything else you need assistance with?"

/-- The regex `w\s+(.+)` for a literal word `w` on a single-line string:
scan for an occurrence of `w` followed by at least one whitespace character,
and capture the (non-empty) text after the greedy whitespace run; positions
whose whitespace run reaches the end of the string are skipped. -/
def captureAfterWord (w : Str) : Str → Option Str
  | [] => none
  | c :: t =>
      if strIsPref w (c :: t) = true then
        match (c :: t).drop w.length with
        | [] => captureAfterWord w t
        | d :: r2 =>
            if jsWs d = true then
              let v := (d :: r2).dropWhile jsWs
              if v = [] then captureAfterWord w t else some v
            else captureAfterWord w t
      else captureAfterWord w t

/-- The application chosen by the `open` rule of `runPatternMatchingAI`:
keyword buckets in source order, then the `open\s+(.+)` filename capture,
then the generic `file`. -/
def openAppOf (taskLower : Str) : Str :=
  if strHas (lit "excel") taskLower = true ∨ strHas (lit "spreadsheet") taskLower = true then
    lit "excel"
  else if strHas (lit "word") taskLower = true ∨ strHas (lit "document") taskLower = true then
    lit "word"
  else if strHas (lit "browser") taskLower = true ∨ strHas (lit "chrome") taskLower = true
      ∨ strHas (lit "firefox") taskLower = true then
    lit "chrome"
  else if strHas (lit "code") taskLower = true ∨ strHas (lit "vscode") taskLower = true
      ∨ strHas (lit "editor") taskLower = true then
    lit "code"
  else if strHas (lit "terminal") taskLower = true ∨ strHas (lit "command") taskLower = true then
    lit "terminal"
  else if strHas (lit "calculator") taskLower = true ∨ strHas (lit "calc") taskLower = true then
    lit "calculator"
  else if strHas (lit "notes") taskLower = true ∨ strHas (lit "notepad") taskLower = true then
    lit "notepad"
  else
    match captureAfterWord (lit "open") taskLower with
    | some f => jsTrim f
    | none => lit "file"

/-- The head of the `runPatternMatchingAI` rule cascade: the two anchored
greeting rules, the thanks rule, then the application-open rule.  The rules
after the open rule (file listing, search, system queries, compile, run,
help, create, close, and the suggestion-carrying rejection) are abstracted
as the continuation `laterRules`; the claims settled here concern only the
ordering of this cascade prefix, so they hold for every continuation. -/
def runPatternMatchingAI (laterRules : Str → Except Str Str) (prompt : Str) :
    Except Str Str :=
  let taskLower := jsToLower prompt
  if pmGreeting1 taskLower = true then Except.ok msgGreeting
  else if pmGreeting2 taskLower = true then Except.ok msgHowAreYou
  else if pmThanks taskLower = true then Except.ok msgThanks
  else if strHas (lit "open") taskLower = true then
    Except.ok (lit "@action: open " ++ openAppOf taskLower)
  else laterRules prompt

/-- The local model session object built by `initLocalModel`: the chosen
model file, the `ready` flag, and the `fallbackMode` flag (false on the real
llama.cpp path, where the key is absent and hence falsy). -/
structure ModelSession where
  modelFile : Str
  ready : Bool
  fallbackMode : Bool
  deriving DecidableEq

/-- Result of one `initLocalModel` call: the resulting `this.localModel`
state, how many expensive load attempts were performed, and whether the call
threw (no model file found). -/
structure InitResult where
  state : Option ModelSession
  loads : Nat
  threw : Bool
  deriving DecidableEq

/-- `files.find(f => f.endsWith('.gguf') || f.endsWith('.bin'))`. -/
def findModelFile (files : List Str) : Option Str :=
  files.find? (fun f => strEndsWith (lit ".gguf") f || strEndsWith (lit ".bin") f)

/-- `initLocalModel`: returns immediately when a ready session exists;
otherwise picks the first model file (throwing when there is none) and
builds a session — via the llama.cpp binding when available (falling back to
pattern-matching mode when that load fails), or directly in simulated
fallback mode.  `llamaAvailable` models the `LlamaModel` import check and
`llamaLoadOk` the success of the external model load. -/
def initLocalModel (files : List Str) (llamaAvailable llamaLoadOk : Bool)
    (st : Option ModelSession) : InitResult :=
  if (match st with | some m => m.ready | none => false) = true then ⟨st, 0, false⟩
  else
    match findModelFile files with
    | none => ⟨st, 0, true⟩
    | some f =>
        if llamaAvailable = true then
          if llamaLoadOk = true then ⟨some ⟨f, true, false⟩, 1, false⟩
          else ⟨some ⟨f, true, true⟩, 1, false⟩
        else ⟨some ⟨f, true, true⟩, 1, false⟩

/-- JS property lookup with truthiness: an absent entry and an empty string
both fail the `if (x)` guards of `getApplicationCommand`. -/
def truthyLookup (m : Str → Str → Option Str) (a p : Str) : Option Str :=
  match m a p with
  | some v => if v = [] then none else some v
  | none => none

/-- The per-platform open command built around a resolved application name
(darwin `open -a`, win32 `start`, otherwise the bare name). -/
def buildOpenCmd (platform app : Str) : Str :=
  if platform = lit "darwin" then lit "open -a \"" ++ app ++ lit "\""
  else if platform = lit "win32" then lit "start \"\" \"" ++ app ++ lit "\""
  else app

/-- `getApplicationCommand(appName, platform)`: the static `appMappings`
entry first, then the learned `successful_mappings` entry, then the default
heuristic on the original (uncased) name.  The function takes no
alternative-probing capability: a lookup never probes alternatives. -/
def getApplicationCommand (appMappings learned : Str → Str → Option Str)
    (appName platform : Str) : Str :=
  let appLower := jsToLower appName
  match truthyLookup appMappings appLower platform with
  | some platformApp => buildOpenCmd platform platformApp
  | none =>
      match truthyLookup learned appLower platform with
      | some learnedApp => buildOpenCmd platform learnedApp
      | none =>
          if platform = lit "darwin" then lit "open -a \"" ++ appName ++ lit "\""
          else if platform = lit "win32" then lit "start \"\" \"" ++ appName ++ lit "\""
          else lit "xdg-open " ++ appName

/-- The learning event of `logFailureAndLearn`: after an alternative
succeeds, `successful_mappings[appLower][platform] = suggestion`. -/
def recordSuccess (learned : Str → Str → Option Str) (appLower exe platform : Str) :
    Str → Str → Option Str :=
  fun a p => if a = appLower ∧ p = platform then some exe else learned a p

/-- C1: any input matching a command-intent pattern is classified as
actionable, regardless of conversational markers, because the command
patterns are tested before every conversational rule. -/
theorem C1_command_pattern_wins (input : Str)
    (h : matchesCommand (jsTrim (jsToLower input)) = true) :
    isConversationalInput input = false := by
  unfold isConversationalInput
  simp only [h, cond_true]

/-- Witness for C1 at the input named by the claim. -/
theorem C1_command_pattern_wins_witness :
    matchesCommand (jsTrim (jsToLower (lit "do you think check disk usage is useful?"))) = true
      ∧ isConversationalInput (lit "do you think check disk usage is useful?") = false :=
  ⟨by decide, C1_command_pattern_wins _ (by decide)⟩

/-- C5 counterexample: an input that matches no command pattern, no
conversational pattern and neither heuristic, contains a question mark in
the middle, does not end in a question mark and has 22 characters — the
claim predicts actionable, but the classifier returns conversational
because the default rule tests `includes('?')`, not ends-with. -/
theorem C5_default_rule_counterexample :
    matchesCommand (jsTrim (jsToLower (lit "xyzzy grok ? plugh zzz"))) = false
      ∧ matchesConversational (jsTrim (jsToLower (lit "xyzzy grok ? plugh zzz"))) = false
      ∧ (hasQuestionWords (jsTrim (jsToLower (lit "xyzzy grok ? plugh zzz")))
          && hasQuestionMark (lit "xyzzy grok ? plugh zzz")
          && !hasCommandKeywords (jsTrim (jsToLower (lit "xyzzy grok ? plugh zzz")))) = false
      ∧ hasConversationalWords (jsTrim (jsToLower (lit "xyzzy grok ? plugh zzz"))) = false
      ∧ strEndsWith (lit "?") (lit "xyzzy grok ? plugh zzz") = false
      ∧ ¬ ((jsTrim (jsToLower (lit "xyzzy grok ? plugh zzz"))).length < 15)
      ∧ isConversationalInput (lit "xyzzy grok ? plugh zzz") = true := by
  decide

/-- C5 amended: on inputs that match no command pattern, no conversational
pattern and neither intermediate heuristic, the classifier returns
conversational exactly when the input contains a question mark anywhere, or
its lower-cased trimmed length is below 15. -/
theorem C5_default_rule_amended (input : Str)
    (h1 : matchesCommand (jsTrim (jsToLower input)) = false)
    (h2 : matchesConversational (jsTrim (jsToLower input)) = false)
    (h3 : (hasQuestionWords (jsTrim (jsToLower input)) && hasQuestionMark input
            && !hasCommandKeywords (jsTrim (jsToLower input))) = false)
    (h4 : hasConversationalWords (jsTrim (jsToLower input)) = false) :
    isConversationalInput input
      = (hasQuestionMark input || decide ((jsTrim (jsToLower input)).length < 15)) := by
  unfold isConversationalInput
  simp only [h1, h2, h3, h4, cond_false]

/-- Witness for C5 amended, at the counterexample input. -/
theorem C5_default_rule_amended_witness :
    isConversationalInput (lit "xyzzy grok ? plugh zzz") = true :=
  Eq.trans
    (C5_default_rule_amended (lit "xyzzy grok ? plugh zzz")
      (by decide) (by decide) (by decide) (by decide))
    (by decide)

/-- Helper: the head of `jsSplitAux acc s` is the pending prefix followed by
the characters of `s` up to the first space. -/
theorem jsSplitAux_headD (acc : Str) (s : Str) :
    ((jsSplitAux acc s).headD []) = acc.reverse ++ s.takeWhile (fun c => !(c == ' ')) := by
  induction s generalizing acc with
  | nil => simp [jsSplitAux]
  | cons c t ih =>
      by_cases hc : c = ' '
      · subst hc
        simp [jsSplitAux]
      · simp only [jsSplitAux, if_neg hc]
        rw [ih (c :: acc)]
        simp [List.takeWhile_cons, hc]

/-- Helper: the first token of a split string headed by a non-space character
starts with that character. -/
theorem jsSplitSpace_headD (c : Char) (s : Str) (hc : ¬ c = ' ') :
    ((jsSplitSpace (c :: s)).headD []) = c :: s.takeWhile (fun c => !(c == ' ')) := by
  rw [jsSplitSpace, jsSplitAux_headD]
  simp [List.takeWhile_cons, hc]

/-- Helper: dropping leading whitespace from a list ending in a non-whitespace
character and reversing yields that character first. -/
theorem dropWhile_app_last (p : Char → Bool) (c : Char) (hc : p c = false) :
    ∀ L : Str, ∃ t, (((L ++ [c]).dropWhile p).reverse) = c :: t := by
  intro L
  induction L with
  | nil =>
      refine ⟨[], ?_⟩
      simp [List.dropWhile_cons, hc]
  | cons x xs ih =>
      by_cases hx : p x = true
      · simpa [List.dropWhile_cons, hx] using ih
      · refine ⟨xs.reverse ++ [x], ?_⟩
        simp [List.dropWhile_cons, hx]

/-- Helper: trimming a string headed by a non-whitespace character keeps that
character in front. -/
theorem jsTrim_cons_of_not_ws (c : Char) (s : Str) (hc : jsWs c = false) :
    ∃ t, jsTrim (c :: s) = c :: t := by
  unfold jsTrim
  have h1 : (c :: s).dropWhile jsWs = c :: s := by
    simp [List.dropWhile_cons, hc]
  rw [h1, List.reverse_cons]
  exact dropWhile_app_last jsWs c hc s.reverse

/-- Helper: a string headed by a given character is not a member of a list of
strings none of which starts with that character. -/
theorem headD_ne_not_mem (c : Char) (l : Str) (L : List Str)
    (hL : ∀ s ∈ L, ¬ s.headD ' ' = c) : ¬ (c :: l) ∈ L := by
  intro hmem
  exact hL _ hmem rfl

/-- C2: a `!`-sigil input is routed to the shell-execution primitive with the
text after the sigil passed through unchanged (the router trims surrounding
whitespace, so the hypotheses fix an already-trimmed remainder), except when
that text starts with `cd`: then the dispatch is the in-process directory
change, no shell execution happens, and a `chdir` failure is caught and
reported, not propagated. -/
theorem C2_shell_sigil_routing (r homedir : Str) (chdir : Str → Except Str Unit)
    (hTrim : jsTrim r = r) (hNe : r ≠ []) :
    (strIsPref (lit "cd") r = false → dispatchOf ('!' :: r) = Dispatch.shellExec r)
    ∧ (strIsPref (lit "cd") r = true →
        dispatchOf ('!' :: r) = Dispatch.cdBuiltin (jsTrim (r.drop 2))
        ∧ (∀ c, ¬ dispatchOf ('!' :: r) = Dispatch.shellExec c)
        ∧ (∀ e, chdir (cdTarget homedir (jsTrim (r.drop 2))) = Except.error e →
            runCdBuiltin homedir chdir (jsTrim (r.drop 2))
              = HandlerOutcome.reported (lit "Error changing directory: " ++ e))) := by
  have hBang : strIsPref (lit "!") ('!' :: r) = true := rfl
  constructor
  · intro hcd
    unfold dispatchOf
    simp [hBang, hTrim, hNe, hcd]
  · intro hcd
    have hDisp : dispatchOf ('!' :: r) = Dispatch.cdBuiltin (jsTrim (r.drop 2)) := by
      unfold dispatchOf
      simp [hBang, hTrim, hNe, hcd]
    refine ⟨hDisp, ?_, ?_⟩
    · intro c
      rw [hDisp]
      simp
    · intro e he
      unfold runCdBuiltin
      rw [he]

/-- Witness for C2 at a literal shell command and a failing `cd`. -/
theorem C2_shell_sigil_routing_witness :
    dispatchOf ('!' :: lit "ls -la") = Dispatch.shellExec (lit "ls -la")
    ∧ dispatchOf ('!' :: lit "cd /tmp") = Dispatch.cdBuiltin (lit "/tmp")
    ∧ runCdBuiltin (lit "/root") (fun _ => Except.error (lit "denied")) (lit "/tmp")
        = HandlerOutcome.reported (lit "Error changing directory: denied") := by
  refine ⟨?_, ?_, ?_⟩
  · exact (C2_shell_sigil_routing (lit "ls -la") (lit "/root")
      (fun _ => Except.error (lit "denied")) (by decide) (by decide)).1 (by decide)
  · have h := ((C2_shell_sigil_routing (lit "cd /tmp") (lit "/root")
      (fun _ => Except.error (lit "denied")) (by decide) (by decide)).2 (by decide)).1
    rw [h]
    decide
  · have h := ((C2_shell_sigil_routing (lit "cd /tmp") (lit "/root")
      (fun _ => Except.error (lit "denied")) (by decide) (by decide)).2 (by decide)).2.2
      (lit "denied") rfl
    have e1 : jsTrim ((lit "cd /tmp").drop 2) = lit "/tmp" := by decide
    rw [e1] at h
    rw [h]
    decide

/-- Helper: an input that is not one of the quit inputs never stops the REPL
loop, whatever the dispatched handler does. -/
theorem replStep_alive (exec : Dispatch → Except Str Unit) (c : Str)
    (h : isExitInput c = false) : replStep exec c = true := by
  have h' : ¬ (jsTrim c = lit "exit" ∨ jsTrim c = lit "quit" ∨ jsTrim c = lit "stop"
      ∨ jsToLower (jsTrim c) = lit "emergency exit") := by
    simpa [isExitInput] using h
  unfold replStep
  rw [if_neg (by tauto), if_neg (by tauto)]
  split
  · rfl
  · cases handleCommandM exec (jsTrim c) <;> rfl

/-- C7: the router never propagates an exception: any handler error is caught
at the `handleCommand` boundary and reported as a message, and the REPL loop
survives an arbitrary sequence of inputs (with arbitrary handler behaviour)
as long as none of them is an explicit quit input. -/
theorem C7_router_never_crashes (exec : Dispatch → Except Str Unit) (inputs : List Str)
    (h : ∀ c ∈ inputs, isExitInput c = false) :
    replAlive exec inputs = true
    ∧ ∀ input e, exec (dispatchOf input) = Except.error e →
        handleCommandM exec input
          = HandlerOutcome.reported (lit "Error executing command: " ++ e) := by
  constructor
  · induction inputs with
    | nil => rfl
    | cons c rest ih =>
        have hc : isExitInput c = false := h c (List.mem_cons_self c rest)
        have hrest : ∀ x ∈ rest, isExitInput x = false :=
          fun x hx => h x (List.mem_cons_of_mem c hx)
        unfold replAlive
        rw [if_pos (replStep_alive exec c hc)]
        exact ih hrest
  · intro input e he
    unfold handleCommandM
    rw [he]

/-- Witness for C7: a handler that always throws, fed malformed inputs. -/
theorem C7_router_never_crashes_witness :
    replAlive (fun _ => Except.error (lit "boom"))
        [lit "@tool crash it", lit "garbage input here", lit "!false cmd"] = true
    ∧ handleCommandM (fun _ => Except.error (lit "boom")) (lit "hello")
        = HandlerOutcome.reported (lit "Error executing command: boom") := by
  have h := C7_router_never_crashes (fun _ => Except.error (lit "boom"))
    [lit "@tool crash it", lit "garbage input here", lit "!false cmd"] (by decide)
  refine ⟨h.1, ?_⟩
  rw [h.2 (lit "hello") (lit "boom") rfl]
  decide

/-- C10: an `@`-input whose mode word is not one of the eight handled sigil
modes raises no error: the sigil switch falls through, the first token
(still carrying the `@`) matches no named command, and the input is
classified and routed as free text with the `@` word included. -/
theorem C10_unknown_sigil_falls_through (rest : Str)
    (hmode : ¬ ((jsSplitSpace rest).headD []) ∈ sigilModeList) :
    dispatchOf ('@' :: rest)
      = (if isConversationalInput (jsTrim ('@' :: rest)) = true
         then Dispatch.conversation (jsTrim ('@' :: rest))
         else Dispatch.naturalCommand (jsTrim ('@' :: rest)))
    ∧ strIsPref (lit "@") (jsTrim ('@' :: rest)) = true := by
  obtain ⟨t, ht⟩ := jsTrim_cons_of_not_ws '@' rest (by decide)
  have hTrimNe : ¬ jsTrim ('@' :: rest) = [] := by rw [ht]; simp
  have hAtTrim : strIsPref (lit "@") (jsTrim ('@' :: rest)) = true := by rw [ht]; rfl
  have hcmd : ((jsSplitSpace ('@' :: rest)).headD [])
      = '@' :: rest.takeWhile (fun c => !(c == ' ')) :=
    jsSplitSpace_headD '@' rest (by decide)
  have hcmdNe : ¬ ((jsSplitSpace ('@' :: rest)).headD []) = [] := by rw [hcmd]; simp
  have hnotNamed : ¬ jsToLower ((jsSplitSpace ('@' :: rest)).headD []) ∈ namedCommandList := by
    rw [hcmd]
    unfold jsToLower
    rw [List.map_cons]
    have hAt : Char.toLower '@' = '@' := by decide
    rw [hAt]
    exact headD_ne_not_mem '@' _ namedCommandList (by decide)
  simp only [sigilModeList, List.mem_cons, List.not_mem_nil, or_false, not_or] at hmode
  obtain ⟨m1, m2, m3, m4, m5, m6, m7, m8⟩ := hmode
  have hNotBang : strIsPref (lit "!") ('@' :: rest) = false := rfl
  have hdrop : ('@' :: rest).drop 1 = rest := rfl
  refine ⟨?_, hAtTrim⟩
  unfold dispatchOf
  rw [hdrop]
  simp only [hNotBang, Bool.false_eq_true, if_false]
  rw [if_neg (by tauto), if_neg (by tauto), if_neg (by tauto), if_neg (by tauto),
    if_neg hnotNamed, if_pos ⟨hcmdNe, hTrimNe⟩]

/-- Witness for C10 at the input `@foo bar baz quux thing`. -/
theorem C10_unknown_sigil_falls_through_witness :
    dispatchOf ('@' :: lit "foo bar baz quux thing")
      = Dispatch.naturalCommand ('@' :: lit "foo bar baz quux thing")
    ∧ strIsPref (lit "@") (jsTrim ('@' :: lit "foo bar baz quux thing")) = true := by
  have h := C10_unknown_sigil_falls_through (lit "foo bar baz quux thing") (by decide)
  refine ⟨?_, h.2⟩
  rw [h.1]
  decide

/-- Helper: the retry recursion performs at most one call more than its
remaining-retries budget. -/
theorem runLocalAIGo_calls_le (attempt : Nat → Except Str Str) :
    ∀ remaining retryCount, (runLocalAIGo attempt remaining retryCount).calls ≤ remaining + 1 := by
  intro remaining
  induction remaining with
  | zero => intro rc; cases h : attempt rc <;> simp [runLocalAIGo, h]
  | succ rem ih =>
      intro rc
      cases h : attempt rc with
      | ok r => simp [runLocalAIGo, h]
      | error e =>
          have := ih (rc + 1)
          simp only [runLocalAIGo, h]
          omega

/-- Helper: every backoff delay slept by the retry recursion is 1000 ms. -/
theorem runLocalAIGo_delays (attempt : Nat → Except Str Str) :
    ∀ remaining retryCount d,
      d ∈ (runLocalAIGo attempt remaining retryCount).delays → d = 1000 := by
  intro remaining
  induction remaining with
  | zero => intro rc d hd; cases h : attempt rc <;> simp [runLocalAIGo, h] at hd
  | succ rem ih =>
      intro rc d hd
      cases h : attempt rc with
      | ok r => simp [runLocalAIGo, h] at hd
      | error e =>
          simp only [runLocalAIGo, h, List.mem_cons] at hd
          rcases hd with hd | hd
      
          · exact hd
          · exact ih (rc + 1) d hd

/-- Helper: when every attempt fails, the retry recursion uses its whole
budget and ends in an error. -/
theorem runLocalAIGo_all_fail (attempt : Nat → Except Str Str)
    (h : ∀ n, ¬ (attempt n).isOk = true) :
    ∀ remaining retryCount,
      (runLocalAIGo attempt remaining retryCount).calls = remaining + 1
      ∧ ∃ e, (runLocalAIGo attempt remaining retryCount).result = Except.error e := by
  intro remaining
  induction remaining with
  | zero =>
      intro rc
      cases hr : attempt rc with
      | ok r => exact absurd (by simp [hr, Except.isOk, Except.toBool]) (h rc)
      | error e => exact ⟨by simp [runLocalAIGo, hr], localAIFailMsg e, by simp [runLocalAIGo, hr]⟩
  | succ rem ih =>
      intro rc
      cases hr : attempt rc with
      | ok r => exact absurd (by simp [hr, Except.isOk, Except.toBool]) (h rc)
      | error e =>
          obtain ⟨hc, he, hres⟩ := ih (rc + 1)
          refine ⟨?_, he, ?_⟩
          · simp only [runLocalAIGo, hr]
            omega
          · simp only [runLocalAIGo, hr]
            exact hres

/-- C3 counterexample: with an always-failing underlying call, `runLocalAI`
attempts the call four times — one initial attempt plus `maxRetries`
retries — not at most `maxRetries = 3` times as the claim states. -/
theorem C3_retry_count_counterexample :
    (runLocalAI (fun _ => Except.error (lit "forced failure")) 0).calls = 4
    ∧ ¬ ((runLocalAI (fun _ => Except.error (lit "forced failure")) 0).calls ≤ maxRetries) := by
  decide

/-- C3 amended: `runLocalAI` attempts the underlying call at most
`maxRetries + 1 = 4` times (one initial attempt plus up to `maxRetries`
retries), sleeping a fixed 1000 ms before each retry; when every attempt
fails it uses the full budget and gives up with an error instead of
retrying further. -/
theorem C3_retry_bound_amended (attempt : Nat → Except Str Str) :
    (runLocalAI attempt 0).calls ≤ maxRetries + 1
    ∧ (∀ d ∈ (runLocalAI attempt 0).delays, d = 1000)
    ∧ ((∀ n, ¬ (attempt n).isOk = true) →
        (runLocalAI attempt 0).calls = maxRetries + 1
        ∧ ∃ e, (runLocalAI attempt 0).result = Except.error e) := by
  refine ⟨runLocalAIGo_calls_le attempt maxRetries 0,
    fun d hd => runLocalAIGo_delays attempt maxRetries 0 d hd,
    fun h => runLocalAIGo_all_fail attempt h maxRetries 0⟩

/-- Witness for C3 amended with an always-failing call. -/
theorem C3_retry_bound_amended_witness :
    (runLocalAI (fun _ => Except.error (lit "x")) 0).calls = maxRetries + 1
    ∧ ∃ e, (runLocalAI (fun _ => Except.error (lit "x")) 0).result = Except.error e :=
  (C3_retry_bound_amended (fun _ => Except.error (lit "x"))).2.2 (fun _ => by decide)

/-- Helper: the `run` branch of `runIntent` for a `.sh` target on win32
reduces to the file-existence test: present scripts hit the
shell-scripts-unsupported error and absent scripts the not-found error. -/
theorem runIntent_run_sh_win32 (scriptsDir : Str) (fileExists : Str → Bool) (target : Str)
    (hsh : strEndsWith (lit ".sh") target = true) :
    runIntent (lit "win32") scriptsDir fileExists (lit "run") target
      = (if fileExists (pathJoin scriptsDir target) = true
         then Except.error IntentError.shOnWindows
         else Except.error (IntentError.scriptNotFound target)) := by
  unfold runIntent
  rw [if_neg (by decide), if_neg (by decide), if_pos (by decide)]
  by_cases hf : fileExists (pathJoin scriptsDir target) = true
  · rw [if_pos hf, if_pos hsh, if_pos rfl, if_pos hf]
  · rw [if_neg hf, if_neg hf]

/-- C4 counterexample: `runIntent('run', 'script.sh')` on win32 with the
script absent from the scripts directory fails with the script-not-found
error, not the `.sh`-unsupported error the claim names. -/
theorem C4_run_sh_counterexample :
    runIntent (lit "win32") (lit "/home/user/.c9ai/scripts") (fun _ => false)
        (lit "run") (lit "script.sh")
      = Except.error (IntentError.scriptNotFound (lit "script.sh"))
    ∧ ¬ runIntent (lit "win32") (lit "/home/user/.c9ai/scripts") (fun _ => false)
        (lit "run") (lit "script.sh")
      = Except.error IntentError.shOnWindows := by
  constructor
  · rfl
  · intro h
    have h' := h.symm.trans (rfl :
      runIntent (lit "win32") (lit "/home/user/.c9ai/scripts") (fun _ => false)
        (lit "run") (lit "script.sh")
      = Except.error (IntentError.scriptNotFound (lit "script.sh")))
    injection h' with h''
    exact IntentError.noConfusion h''

/-- C4 amended: `runIntent('run', target)` for a `.sh` target on win32 always
fails — with the `.sh`-unsupported error when the script exists at the
resolved path, and with script-not-found when it does not — and in either
case no command string is produced, so no subprocess is invoked. -/
theorem C4_run_sh_windows_amended (scriptsDir : Str) (fileExists : Str → Bool) (target : Str)
    (hsh : strEndsWith (lit ".sh") target = true) :
    (∃ err, runIntent (lit "win32") scriptsDir fileExists (lit "run") target
        = Except.error err)
    ∧ (fileExists (pathJoin scriptsDir target) = true →
        runIntent (lit "win32") scriptsDir fileExists (lit "run") target
          = Except.error IntentError.shOnWindows) := by
  constructor
  · rw [runIntent_run_sh_win32 scriptsDir fileExists target hsh]
    by_cases hf : fileExists (pathJoin scriptsDir target) = true
    · exact ⟨IntentError.shOnWindows, by rw [if_pos hf]⟩
    · exact ⟨IntentError.scriptNotFound target, by rw [if_neg hf]⟩
  · intro hf
    rw [runIntent_run_sh_win32 scriptsDir fileExists target hsh, if_pos hf]

/-- Witness for C4 amended with the script present. -/
theorem C4_run_sh_windows_amended_witness :
    runIntent (lit "win32") (lit "/home/user/.c9ai/scripts") (fun _ => true)
        (lit "run") (lit "script.sh")
      = Except.error IntentError.shOnWindows :=
  (C4_run_sh_windows_amended (lit "/home/user/.c9ai/scripts") (fun _ => true)
    (lit "script.sh") (by decide)).2 rfl

/-- Helper: a list is a leading segment of itself followed by anything. -/
theorem strIsPref_append (a b : Str) : strIsPref a (a ++ b) = true := by
  induction a with
  | nil => rfl
  | cons c as ih => simp [strIsPref, ih]

/-- C6: the pattern-to-intent cascade fires only its first matching rule:
any prompt containing `open` that does not match the earlier greeting or
thanks rules resolves to an `@action: open ...` result, for every behaviour
of the rules further down the cascade — in particular even when `search`
(the trigger of a later rule) occurs in the same prompt. -/
theorem C6_open_rule_shadows_later_rules (laterRules : Str → Except Str Str) (prompt : Str)
    (hg1 : pmGreeting1 (jsToLower prompt) = false)
    (hg2 : pmGreeting2 (jsToLower prompt) = false)
    (ht : pmThanks (jsToLower prompt) = false)
    (hopen : strHas (lit "open") (jsToLower prompt) = true) :
    runPatternMatchingAI laterRules prompt
      = Except.ok (lit "@action: open " ++ openAppOf (jsToLower prompt))
    ∧ strIsPref (lit "@action: open")
        (lit "@action: open " ++ openAppOf (jsToLower prompt)) = true := by
  constructor
  · unfold runPatternMatchingAI
    rw [if_neg (by simp [hg1]), if_neg (by simp [hg2]), if_neg (by simp [ht]),
      if_pos hopen]
  · have h := strIsPref_append (lit "@action: open") (' ' :: openAppOf (jsToLower prompt))
    simpa using h

/-- Witness for C6 at a prompt containing both `open` and `search`. -/
theorem C6_open_rule_shadows_later_rules_witness :
    runPatternMatchingAI (fun _ => Except.error []) (lit "open chrome and search cats")
      = Except.ok (lit "@action: open chrome")
    ∧ strHas (lit "search") (jsToLower (lit "open chrome and search cats")) = true := by
  have h := C6_open_rule_shadows_later_rules (fun _ => Except.error [])
    (lit "open chrome and search cats") (by decide) (by decide) (by decide) (by decide)
  refine ⟨?_, by decide⟩
  rw [h.1]
  decide

/-- C8: the model-session initializer is idempotent.  If the session already
exists and is ready, a call is a no-op performing zero loads and leaving the
state unchanged; and after any non-throwing call, a second call is such a
no-op, so the expensive load of the two-call sequence happens at most
once. -/
theorem C8_init_idempotent (files : List Str) (la lok : Bool) (st : Option ModelSession)
    (h : (initLocalModel files la lok st).threw = false) :
    initLocalModel files la lok (initLocalModel files la lok st).state
      = ⟨(initLocalModel files la lok st).state, 0, false⟩
    ∧ (initLocalModel files la lok st).loads ≤ 1
    ∧ (∀ m, st = some m → m.ready = true →
        initLocalModel files la lok st = ⟨st, 0, false⟩) := by
  cases hb : (match st with | some m => m.ready | none => false) with
  | true =>
      have h1 : initLocalModel files la lok st = ⟨st, 0, false⟩ := by
        unfold initLocalModel
        rw [if_pos hb]
      refine ⟨?_, ?_, fun m hm hr => h1⟩
      · rw [h1]
        show initLocalModel files la lok st = ⟨st, 0, false⟩
        exact h1
      · rw [h1]
        exact Nat.zero_le 1
  | false =>
      cases hf : findModelFile files with
      | none =>
          exfalso
          have hT : (initLocalModel files la lok st).threw = true := by
            unfold initLocalModel
            rw [if_neg (by simp [hb]), hf]
          rw [hT] at h
          exact Bool.noConfusion h
      | some f =>
          have h1 : initLocalModel files la lok st
              = ⟨some ⟨f, true, !(la && lok)⟩, 1, false⟩ := by
            unfold initLocalModel
            rw [if_neg (by simp [hb]), hf]
            cases la <;> cases lok <;> rfl
          have h2 : initLocalModel files la lok (some ⟨f, true, !(la && lok)⟩)
              = ⟨some ⟨f, true, !(la && lok)⟩, 0, false⟩ := by
            unfold initLocalModel
            rw [if_pos rfl]
          refine ⟨?_, ?_, fun m hm hr => ?_⟩
          · rw [h1]
            show initLocalModel files la lok (some ⟨f, true, !(la && lok)⟩)
              = ⟨some ⟨f, true, !(la && lok)⟩, 0, false⟩
            exact h2
          · rw [h1]
          exfalso
          subst hm
          have hb' : m.ready = false := hb
          rw [hr] at hb'
          exact Bool.noConfusion hb'

/-- Witness for C8: a fresh initialization followed by a second call, and a
call on an already-ready session. -/
theorem C8_init_idempotent_witness :
    initLocalModel [lit "phi-3.gguf"] false false
        (initLocalModel [lit "phi-3.gguf"] false false none).state
      = ⟨(initLocalModel [lit "phi-3.gguf"] false false none).state, 0, false⟩
    ∧ initLocalModel [lit "phi-3.gguf"] false false
        (some ⟨lit "phi-3.gguf", true, true⟩)
      = ⟨some ⟨lit "phi-3.gguf", true, true⟩, 0, false⟩ := by
  have h1 := C8_init_idempotent [lit "phi-3.gguf"] false false none (by decide)
  have h2 := C8_init_idempotent [lit "phi-3.gguf"] false false
    (some ⟨lit "phi-3.gguf", true, true⟩) (by decide)
  exact ⟨h1.1, h2.2.2 _ rfl rfl⟩

/-- C9 counterexample: a state in which the static `applications` map and
the learned `successful_mappings` both hold an entry for `calc` on `linux`.
The lookup returns the static mapping, not a command built from the learned
executable, because `getApplicationCommand` consults `appMappings` first. -/
theorem C9_static_shadow_counterexample :
    getApplicationCommand
        (fun a p => if a = lit "calc" ∧ p = lit "linux" then some (lit "bad-calc") else none)
        (fun a p =>
          if a = lit "calc" ∧ p = lit "linux" then some (lit "gnome-calculator") else none)
        (lit "calc") (lit "linux")
      = lit "bad-calc"
    ∧ ¬ getApplicationCommand
        (fun a p => if a = lit "calc" ∧ p = lit "linux" then some (lit "bad-calc") else none)
        (fun a p =>
          if a = lit "calc" ∧ p = lit "linux" then some (lit "gnome-calculator") else none)
        (lit "calc") (lit "linux")
      = lit "gnome-calculator" := by
  decide

/-- C9 amended: once a learned mapping is recorded for an alias on an OS,
every subsequent lookup for that alias on that OS whose static
`applications` map has no (truthy) entry for it returns the command built
from the learned executable — preferred over the default heuristic and
without probing alternatives (the lookup has no probing capability at
all). -/
theorem C9_learned_mapping_amended (appMappings learned : Str → Str → Option Str)
    (appName exe platform : Str) (hexe : ¬ exe = [])
    (hstatic : truthyLookup appMappings (jsToLower appName) platform = none) :
    getApplicationCommand appMappings
        (recordSuccess learned (jsToLower appName) exe platform) appName platform
      = buildOpenCmd platform exe := by
  have hlearn : truthyLookup (recordSuccess learned (jsToLower appName) exe platform)
      (jsToLower appName) platform = some exe := by
    unfold truthyLookup recordSuccess
    rw [if_pos ⟨rfl, rfl⟩]
    show (if exe = [] then none else some exe) = some exe
    rw [if_neg hexe]
  unfold getApplicationCommand
  simp only [hstatic, hlearn]

/-- Witness for C9 amended: after `calc` learns `gnome-calculator` on linux,
the lookup yields `gnome-calculator`. -/
theorem C9_learned_mapping_amended_witness :
    getApplicationCommand (fun _ _ => none)
        (recordSuccess (fun _ _ => none) (jsToLower (lit "calc"))
          (lit "gnome-calculator") (lit "linux"))
        (lit "calc") (lit "linux")
      = lit "gnome-calculator" := by
  have h := C9_learned_mapping_amended (fun _ _ => none) (fun _ _ => none)
    (lit "calc") (lit "gnome-calculator") (lit "linux") (by decide) (by decide)
  rw [h]
  decide
